import Mathlib

/-!
Shallow embedding of the core of the Midas tracked-product store
(`src/main.rs`): identity resolution (`is_admin`, `login_handler`),
product submission with retailer/URL validation (`add_product`), and
role-scoped listing (the filtering block of `view_products`).

Rust `f64` values arising from `str::parse::<f64>()` are modelled as
exact decimal rationals (plus infinity/NaN markers): the parser decides
the same success/failure set as Rust's grammar and finite values carry
the exact decimal value the text denotes.
-/

namespace Midas

/-- Role enum from `src/main.rs` (`UserRole`). -/
inductive UserRole where
  | Regular
  | Admin
deriving DecidableEq, Repr

/-- User structure from `src/main.rs` (`User`): a resolved actor. -/
structure User where
  username : String
  role : UserRole
deriving DecidableEq, Repr

/-- Rust `str::to_lowercase` (ASCII case mapping, character by
character; all strings the program compares are ASCII). -/
def to_lowercase (s : String) : String :=
  String.mk (s.data.map Char.toLower)

/-- Embeds `is_admin` from `src/main.rs`: only the (case-insensitively) "admin"
username has admin privileges. -/
def is_admin (username : String) : Bool :=
  to_lowercase username == "admin"

/-- Abstract value of a Rust `f64` produced by parsing: an exact decimal
rational, or one of the non-finite values the grammar allows. -/
inductive FloatVal where
  | finite (q : ℚ)
  | inf
  | neginf
  | nan
deriving DecidableEq, Repr

/-- Embeds `Product` from `src/main.rs`; `created_at` is modelled as an abstract
clock value supplied at creation. -/
structure Product where
  url : String
  name : String
  retailer : String
  target_price : Option FloatVal
  added_by : String
  created_at : Nat
deriving DecidableEq, Repr

/-- Embeds `ProductForm` from `src/main.rs`: the raw submitted fields. -/
structure ProductForm where
  url : String
  name : String
  retailer : String
  target_price : Option String
deriving DecidableEq, Repr

/-- Embeds `supported_retailers` from `src/main.rs`. -/
def supported_retailers : List String :=
  ["Best Buy", "Amazon"]

/-- The two validation errors `add_product` can signal (the
`invalid_retailer` / `invalid_url` redirect codes in `src/main.rs`). -/
inductive AddError where
  | invalid_retailer
  | invalid_url
deriving DecidableEq, Repr

/-- Tests whether `needle` is an initial segment of `hay` (helper for
substring containment, mirroring Rust `str::contains`). -/
def beginsWith : List Char → List Char → Bool
  | _, [] => true
  | [], _ :: _ => false
  | c :: cs, d :: ds => c == d && beginsWith cs ds

/-- Tests whether `needle` occurs contiguously somewhere in `hay` (Rust
`str::contains` on the underlying character sequences). -/
def occursIn : List Char → List Char → Bool
  | [], needle => needle.isEmpty
  | c :: rest, needle => beginsWith (c :: rest) needle || occursIn rest needle

/-- Rust `str::contains(sub)` on `s`. -/
def strContains (s sub : String) : Bool :=
  occursIn s.data sub.data

/-- Numeric value of a digit string (base 10). -/
def digitsVal (cs : List Char) : Nat :=
  cs.foldl (fun acc c => acc * 10 + (c.toNat - 48)) 0

/-- Scale a rational by a signed power of ten. -/
def applyExp (q : ℚ) (e : Int) : ℚ :=
  if 0 ≤ e then q * (10 : ℚ) ^ e.toNat else q / (10 : ℚ) ^ (-e).toNat

/-- Optional exponent suffix of Rust's float grammar: empty input means
exponent 0; otherwise `e`/`E`, an optional sign, and at least one digit,
consuming the whole input. -/
def parseExpOpt : List Char → Option Int
  | [] => some 0
  | c :: rest =>
    if c = 'e' ∨ c = 'E' then
      match rest with
      | '+' :: ds =>
        if ds ≠ [] ∧ ds.all Char.isDigit then some (Int.ofNat (digitsVal ds)) else none
      | '-' :: ds =>
        if ds ≠ [] ∧ ds.all Char.isDigit then some (-(Int.ofNat (digitsVal ds))) else none
      | ds =>
        if ds ≠ [] ∧ ds.all Char.isDigit then some (Int.ofNat (digitsVal ds)) else none
    else none

/-- The (sign-stripped) number part of Rust's float grammar:
`Digit+ | Digit+ '.' Digit* | Digit* '.' Digit+`, then an optional
exponent; yields the exact decimal value. -/
def parseNumber (cs : List Char) : Option ℚ :=
  let p := cs.span Char.isDigit
  match p.2 with
  | '.' :: rest2 =>
    let pf := rest2.span Char.isDigit
    if p.1.isEmpty && pf.1.isEmpty then none
    else
      match parseExpOpt pf.2 with
      | some e =>
        some (applyExp ((digitsVal p.1 : ℚ) + (digitsVal pf.1 : ℚ) / (10 : ℚ) ^ pf.1.length) e)
      | none => none
  | _ =>
    if p.1.isEmpty then none
    else
      match parseExpOpt p.2 with
      | some e => some (applyExp (digitsVal p.1 : ℚ) e)
      | none => none

/-- Rust `str::parse::<f64>()` (as used on the target-price text):
optional sign, then case-insensitive `inf`/`infinity`/`nan` or a decimal
number with optional exponent. `none` models parse failure. -/
def parseF64 (s : String) : Option FloatVal :=
  let p : Bool × List Char :=
    match s.data with
    | '+' :: r => (false, r)
    | '-' :: r => (true, r)
    | r => (false, r)
  let low := p.2.map Char.toLower
  if low = "inf".data ∨ low = "infinity".data then
    some (if p.1 then FloatVal.neginf else FloatVal.inf)
  else if low = "nan".data then
    some FloatVal.nan
  else
    match parseNumber p.2 with
    | some q => some (FloatVal.finite (if p.1 then -q else q))
    | none => none

/-- Rust `Option::filter`. -/
def optFilter (p : α → Bool) : Option α → Option α
  | none => none
  | some a => if p a then some a else none

/-- The retailer-membership check of `add_product`
(`supported_retailers().contains(&form.retailer.as_str())`). -/
def is_valid_retailer (form : ProductForm) : Bool :=
  supported_retailers.contains form.retailer

/-- The URL-domain check of `add_product`: the Rust `match` on
`form.retailer.as_str()` testing lowercased-substring containment. -/
def is_valid_url (form : ProductForm) : Bool :=
  if form.retailer = "Best Buy" then
    strContains (to_lowercase form.url) "bestbuy.com"
  else if form.retailer = "Amazon" then
    let url := to_lowercase form.url
    strContains url "amazon.com" || strContains url "amzn.to" || strContains url "a.co"
  else false

/-- The target-price conversion of `add_product`:
`form.target_price.filter(|s| !s.is_empty()).and_then(|s| s.parse::<f64>().ok())`. -/
def targetPriceOf (form : ProductForm) : Option FloatVal :=
  (optFilter (fun s => !s.isEmpty) form.target_price).bind parseF64

/-- The `Product` literal constructed on `add_product`'s success path
(`Product { url: form.url, name: form.name, ... }` in `src/main.rs`). -/
def mkProduct (form : ProductForm) (username : String) (now : Nat) : Product :=
  { url := form.url, name := form.name, retailer := form.retailer,
    target_price := targetPriceOf form, added_by := username,
    created_at := now }

/-- Embeds `add_product` from `src/main.rs`, with the HTTP transport abstracted:
the redirect-with-error path is `(some e, store)` (state untouched), the
success path pushes the constructed product and is `(none, store ++ [p])`.
`username` is the acting user's name and `now` the creation clock. -/
def add_product (form : ProductForm) (username : String) (now : Nat)
    (store : List Product) : Option AddError × List Product :=
  if !is_valid_retailer form || !is_valid_url form then
    (some (if !is_valid_retailer form then AddError.invalid_retailer else AddError.invalid_url),
     store)
  else
    (none, store ++ [mkProduct form username now])

/-- The role-scoped filtering block shared by `view_products` and
`dashboard` in `src/main.rs`: admins see every product, regular users see
exactly their own, in store order. -/
def list_visible (user : User) (store : List Product) : List Product :=
  if user.role = UserRole.Admin then store
  else store.filter (fun p => p.added_by == user.username)

/-- Result of identity resolution. -/
inductive LoginResult where
  | rejected
  | ok (user : User)
deriving DecidableEq, Repr

/-- The decision logic of `login_handler` from `src/main.rs`, with the
redirect transport abstracted: succeeds exactly when both fields are
non-empty, and the role is `Admin` exactly when `is_admin` accepts the
username. -/
def resolve (username password : String) : LoginResult :=
  if !username.isEmpty && !password.isEmpty then
    LoginResult.ok ⟨username, if is_admin username then UserRole.Admin else UserRole.Regular⟩
  else
    LoginResult.rejected

/-- Embeds `create_app_state` from `src/main.rs`: the store starts empty. -/
def create_app_state : List Product := []

/-- An operation against the store: a product submission or a
(read-only) listing. -/
inductive Op where
  | add (form : ProductForm) (username : String) (now : Nat)
  | list (user : User)

/-- Effect of one operation on the store sequence; `list` is read-only. -/
def applyOp (store : List Product) : Op → List Product
  | Op.add form username now => (add_product form username now store).2
  | Op.list _ => store

/-- Store state after running a sequence of operations from the empty
initial state. -/
def run (ops : List Op) : List Product :=
  ops.foldl applyOp create_app_state

/-! Sample data used by concrete witnesses. -/

/-- A product recorded for user `bob`. -/
def bobProduct : Product :=
  { url := "https://www.amazon.com/dp/B08FC6MR62", name := "PS5", retailer := "Amazon",
    target_price := none, added_by := "bob", created_at := 5 }

/-- A valid Amazon submission with no target price. -/
def amazonForm : ProductForm :=
  { url := "https://www.amazon.com/dp/B08FC6MR62", name := "PS5", retailer := "Amazon",
    target_price := none }

/-- A submission with an unsupported retailer. -/
def ebayForm : ProductForm :=
  { url := "https://www.ebay.com/itm/1", name := "thing", retailer := "eBay",
    target_price := none }

/-- A valid Amazon submission with the spec's example target price. -/
def pricedForm : ProductForm :=
  { url := "https://www.amazon.com/dp/B08FC6MR62", name := "PS5", retailer := "Amazon",
    target_price := some "399.99" }

/-- A valid Amazon submission whose target-price text does not parse. -/
def junkPriceForm : ProductForm :=
  { url := "https://www.amazon.com/dp/B08FC6MR62", name := "PS5", retailer := "Amazon",
    target_price := some "cheap" }

/-! Helper lemmas. -/

/-- Evaluating the price parser on the spec's example text. -/
theorem parseF64_399_99 : parseF64 "399.99" = some (FloatVal.finite (39999 / 100)) := by
  simp [parseF64, parseNumber, parseExpOpt, applyExp, digitsVal, List.span, List.span.loop]
  norm_num

/-- Evaluating the price parser on a negative integer text. -/
theorem parseF64_neg5 : parseF64 "-5" = some (FloatVal.finite (-5)) := by
  simp [parseF64, parseNumber, parseExpOpt, applyExp, digitsVal, List.span, List.span.loop]

/-! Claim theorems. -/

/-- C1: `list_visible` returns the whole store, in store order, for an
admin actor; for any other actor it returns exactly the products whose
`added_by` equals the actor's username, in store order; hence for two
distinct non-admin actors, no product owned by the second appears in the
first's listing. -/
theorem C1_list_visible_role_scoping (a : User) (store : List Product) :
    (a.role = UserRole.Admin → list_visible a store = store) ∧
    (a.role ≠ UserRole.Admin →
      list_visible a store = store.filter (fun p => p.added_by == a.username)) ∧
    (∀ b : User, a.role ≠ UserRole.Admin → b.role ≠ UserRole.Admin → a ≠ b →
      ∀ p ∈ list_visible a store, ¬ p.added_by = b.username) := by
  refine ⟨fun h => by simp [list_visible, h], fun h => by simp [list_visible, h], ?_⟩
  rintro ⟨ub, rb⟩ ha hb hab p hp hpb
  obtain ⟨ua, ra⟩ := a
  cases ra <;> cases rb <;> simp_all [list_visible, List.mem_filter]

/-- Witness for C1 at concrete inputs: a regular actor `alice` sees none
of `bob`'s products, and an admin actor sees the whole store. -/
theorem C1_witness :
    list_visible ⟨"alice", UserRole.Regular⟩ [bobProduct] = [] ∧
    list_visible ⟨"Admin", UserRole.Admin⟩ [bobProduct] = [bobProduct] := by
  constructor
  · rw [(C1_list_visible_role_scoping ⟨"alice", UserRole.Regular⟩ [bobProduct]).2.1
      (by decide)]
    decide
  · exact (C1_list_visible_role_scoping ⟨"Admin", UserRole.Admin⟩ [bobProduct]).1 rfl

/-- C2: `add_product` signals `invalid_retailer` exactly when the
retailer is not a case-sensitive member of {"Best Buy", "Amazon"};
signals `invalid_url` exactly when the retailer is a member but the
lowercased URL lacks every domain fragment associated with it; and
succeeds otherwise — the retailer check decides the error first. -/
theorem C2_validation_order (form : ProductForm) (username : String) (now : Nat)
    (store : List Product) :
    ((add_product form username now store).1 = some AddError.invalid_retailer ↔
      ¬ (form.retailer = "Best Buy" ∨ form.retailer = "Amazon")) ∧
    ((add_product form username now store).1 = some AddError.invalid_url ↔
      ((form.retailer = "Best Buy" ∧
          strContains (to_lowercase form.url) "bestbuy.com" = false) ∨
       (form.retailer = "Amazon" ∧
          strContains (to_lowercase form.url) "amazon.com" = false ∧
          strContains (to_lowercase form.url) "amzn.to" = false ∧
          strContains (to_lowercase form.url) "a.co" = false))) ∧
    ((add_product form username now store).1 = none ↔
      ((form.retailer = "Best Buy" ∧
          strContains (to_lowercase form.url) "bestbuy.com" = true) ∨
       (form.retailer = "Amazon" ∧
          (strContains (to_lowercase form.url) "amazon.com" = true ∨
           strContains (to_lowercase form.url) "amzn.to" = true ∨
           strContains (to_lowercase form.url) "a.co" = true)))) := by
  by_cases hbb : form.retailer = "Best Buy"
  · cases h : strContains (to_lowercase form.url) "bestbuy.com" <;>
      simp_all [add_product, is_valid_retailer, is_valid_url, supported_retailers,
        List.contains, List.elem]
  · by_cases ham : form.retailer = "Amazon"
    · cases h1 : strContains (to_lowercase form.url) "amazon.com" <;>
        cases h2 : strContains (to_lowercase form.url) "amzn.to" <;>
          cases h3 : strContains (to_lowercase form.url) "a.co" <;>
            simp_all [add_product, is_valid_retailer, is_valid_url, supported_retailers,
              List.contains, List.elem]
    · have hb : (form.retailer == "Best Buy") = false := beq_eq_false_iff_ne.mpr hbb
      have ha : (form.retailer == "Amazon") = false := beq_eq_false_iff_ne.mpr ham
      simp [add_product, is_valid_retailer, is_valid_url, supported_retailers,
        List.contains, List.elem, hb, ha, hbb, ham]

/-- C3: a failed `add_product` leaves the store sequence untouched. -/
theorem C3_failed_add_preserves_store (form : ProductForm) (username : String)
    (now : Nat) (store : List Product) (e : AddError)
    (h : (add_product form username now store).1 = some e) :
    (add_product form username now store).2 = store := by
  unfold add_product at h ⊢
  by_cases hc : (!is_valid_retailer form || !is_valid_url form) = true
  · rw [if_pos hc]
  · rw [if_neg hc] at h
    simp at h

/-- Witness for C3: an unsupported-retailer submission fails and the
store still holds exactly what it held before. -/
theorem C3_witness :
    (add_product ebayForm "alice" 0 [bobProduct]).2 = [bobProduct] :=
  C3_failed_add_preserves_store ebayForm "alice" 0 [bobProduct]
    AddError.invalid_retailer (by decide)

/-- C4: identity resolution rejects exactly when a credential field is
empty, and otherwise yields the submitted username with the `Admin` role
exactly when the lowercased username is "admin". -/
theorem C4_resolve_contract (username password : String) :
    (resolve username password = LoginResult.rejected ↔
      username = "" ∨ password = "") ∧
    (¬ (username = "" ∨ password = "") →
      resolve username password =
        LoginResult.ok ⟨username,
          if to_lowercase username = "admin" then UserRole.Admin
          else UserRole.Regular⟩) := by
  constructor
  · by_cases h1 : username = "" <;> by_cases h2 : password = "" <;>
      simp_all [resolve, String.isEmpty_iff]
  · intro h
    obtain ⟨h1, h2⟩ := not_or.mp h
    rw [resolve, if_pos (by simp [Bool.eq_false_iff, ne_eq, String.isEmpty_iff, h1, h2])]
    by_cases hA : to_lowercase username = "admin" <;> simp [is_admin, hA]

/-- Witness for C4: empty credentials are rejected, "Admin" resolves to
the admin role, "alice" to the regular role. -/
theorem C4_witness :
    resolve "" "pw" = LoginResult.rejected ∧
    resolve "Admin" "pw" = LoginResult.ok ⟨"Admin", UserRole.Admin⟩ ∧
    resolve "alice" "pw" = LoginResult.ok ⟨"alice", UserRole.Regular⟩ := by
  refine ⟨(C4_resolve_contract "" "pw").1.mpr (Or.inl rfl), ?_, ?_⟩
  · rw [(C4_resolve_contract "Admin" "pw").2 (by decide)]
    decide
  · rw [(C4_resolve_contract "alice" "pw").2 (by decide)]
    decide

/-- C5: after a successful `add_product`, the acting user's own listing
contains a product whose url, name, retailer and owner match the
submission. -/
theorem C5_added_product_visible (form : ProductForm) (a : User) (now : Nat)
    (store : List Product)
    (h : (add_product form a.username now store).1 = none) :
    ∃ p ∈ list_visible a ((add_product form a.username now store).2),
      p.url = form.url ∧ p.name = form.name ∧ p.retailer = form.retailer ∧
      p.added_by = a.username := by
  have hc : ¬ ((!is_valid_retailer form || !is_valid_url form) = true) := by
    intro hc
    unfold add_product at h
    rw [if_pos hc] at h
    simp at h
  have h2 : (add_product form a.username now store).2 =
      store ++ [mkProduct form a.username now] := by
    unfold add_product
    rw [if_neg hc]
  rw [h2]
  refine ⟨mkProduct form a.username now, ?_, rfl, rfl, rfl, rfl⟩
  unfold list_visible
  split
  · exact List.mem_append_right _ (List.mem_singleton.mpr rfl)
  · rw [List.mem_filter]
    exact ⟨List.mem_append_right _ (List.mem_singleton.mpr rfl), by simp [mkProduct]⟩

/-- Witness for C5: after `alice` submits a valid Amazon product into the
empty store, her own listing contains a matching product. -/
theorem C5_witness :
    ∃ p ∈ list_visible ⟨"alice", UserRole.Regular⟩
        ((add_product amazonForm "alice" 0 []).2),
      p.url = amazonForm.url ∧ p.name = amazonForm.name ∧
      p.retailer = amazonForm.retailer ∧ p.added_by = "alice" :=
  C5_added_product_visible amazonForm ⟨"alice", UserRole.Regular⟩ 0 [] (by decide)

/-- C6: for an otherwise-valid candidate, the add succeeds whatever the
target-price text is; an absent, empty, or unparsable text yields a
stored product with no target price, and the text "399.99" yields the
stored value 399.99. -/
theorem C6_target_price_policy (form : ProductForm) (username : String) (now : Nat)
    (store : List Product)
    (hr : is_valid_retailer form = true) (hu : is_valid_url form = true) :
    (add_product form username now store).1 = none ∧
    ((form.target_price = none ∨ form.target_price = some "" ∨
        (∀ s, form.target_price = some s → parseF64 s = none)) →
      (add_product form username now store).2 =
        store ++ [{ url := form.url, name := form.name, retailer := form.retailer,
                    target_price := none, added_by := username, created_at := now }]) ∧
    (form.target_price = some "399.99" →
      (add_product form username now store).2 =
        store ++ [{ url := form.url, name := form.name, retailer := form.retailer,
                    target_price := some (FloatVal.finite (39999 / 100)),
                    added_by := username, created_at := now }]) := by
  have hc : ¬ ((!is_valid_retailer form || !is_valid_url form) = true) := by
    simp [hr, hu]
  have h1 : (add_product form username now store).1 = none := by
    unfold add_product
    rw [if_neg hc]
  have h2 : (add_product form username now store).2 =
      store ++ [mkProduct form username now] := by
    unfold add_product
    rw [if_neg hc]
  refine ⟨h1, ?_, ?_⟩
  · intro hcase
    rw [h2]
    have htpn : targetPriceOf form = none := by
      rcases hcase with hn | he | hall
      · simp only [targetPriceOf, hn]
        rfl
      · simp only [targetPriceOf, he]
        decide
      · cases hf : form.target_price with
        | none =>
          simp only [targetPriceOf, hf]
          rfl
        | some s =>
          simp only [targetPriceOf, hf, optFilter]
          by_cases hse : s.isEmpty
          · simp [hse]
          · simp [hse, hall s hf]
    simp [mkProduct, htpn]
  · intro hp
    rw [h2]
    have hne : ("399.99" : String).isEmpty = false := by decide
    have htp : targetPriceOf form = some (FloatVal.finite (39999 / 100)) := by
      simp only [targetPriceOf, hp, optFilter, hne]
      simp [parseF64_399_99]
    simp [mkProduct, htp]

/-- Witness for C6: `alice`'s valid submission with text "399.99" stores
the value 399.99, and the same submission with unparsable text "cheap"
still succeeds and stores no target price. -/
theorem C6_witness :
    (add_product pricedForm "alice" 0 []).1 = none ∧
    (add_product pricedForm "alice" 0 []).2 =
      [{ url := pricedForm.url, name := pricedForm.name, retailer := pricedForm.retailer,
         target_price := some (FloatVal.finite (39999 / 100)), added_by := "alice",
         created_at := 0 }] ∧
    (add_product junkPriceForm "alice" 0 []).1 = none ∧
    (add_product junkPriceForm "alice" 0 []).2 =
      [{ url := junkPriceForm.url, name := junkPriceForm.name,
         retailer := junkPriceForm.retailer, target_price := none,
         added_by := "alice", created_at := 0 }] := by
  refine ⟨(C6_target_price_policy pricedForm "alice" 0 [] (by decide) (by decide)).1,
    ?_,
    (C6_target_price_policy junkPriceForm "alice" 0 [] (by decide) (by decide)).1,
    ?_⟩
  · have h := (C6_target_price_policy pricedForm "alice" 0 [] (by decide) (by decide)).2.2 rfl
    simpa using h
  · have h := (C6_target_price_policy junkPriceForm "alice" 0 [] (by decide) (by decide)).2.1
      (Or.inr (Or.inr (fun s hs => by
        have hs' : some "cheap" = some s := hs
        injection hs' with h'
        rw [← h']
        decide)))
    simpa using h

/-- Shows `is_valid_retailer` accepts exactly the two supported retailer
strings. -/
theorem is_valid_retailer_iff (form : ProductForm) :
    is_valid_retailer form = true ↔
      form.retailer = "Best Buy" ∨ form.retailer = "Amazon" := by
  by_cases h1 : form.retailer = "Best Buy"
  · simp [is_valid_retailer, supported_retailers, List.contains, List.elem, h1]
  · by_cases h2 : form.retailer = "Amazon"
    · simp [is_valid_retailer, supported_retailers, List.contains, List.elem, h1, h2]
    · have hb := beq_eq_false_iff_ne.mpr h1
      have ha := beq_eq_false_iff_ne.mpr h2
      simp [is_valid_retailer, supported_retailers, List.contains, List.elem,
        hb, ha, h1, h2]

/-- Provenance of products in any store computed by folding operations:
each product was already present initially or was constructed by some
`add` operation in the sequence that passed the retailer check. -/
theorem mem_foldl_applyOp (ops : List Op) (s : List Product) :
    ∀ p ∈ ops.foldl applyOp s,
      p ∈ s ∨ ∃ form username now, Op.add form username now ∈ ops ∧
        is_valid_retailer form = true ∧ p = mkProduct form username now := by
  induction ops generalizing s with
  | nil => exact fun p hp => Or.inl hp
  | cons op rest ih =>
    intro p hp
    rw [List.foldl_cons] at hp
    rcases ih (applyOp s op) p hp with h | ⟨f, u, t, hmem, hv, hpe⟩
    · cases op with
      | list u => exact Or.inl h
      | add f u t =>
        simp only [applyOp] at h
        unfold add_product at h
        by_cases hc : (!is_valid_retailer f || !is_valid_url f) = true
        · rw [if_pos hc] at h
          exact Or.inl h
        · rw [if_neg hc] at h
          rcases List.mem_append.mp h with h' | h'
          · exact Or.inl h'
          · refine Or.inr ⟨f, u, t, List.mem_cons_self _ _, ?_,
              List.mem_singleton.mp h'⟩
            cases hvr : is_valid_retailer f
            · exact absurd (by simp [hvr]) hc
            · rfl
    · exact Or.inr ⟨f, u, t, List.mem_cons_of_mem _ hmem, hv, hpe⟩

/-- C7: in every store state reachable from the empty store, each product
has a supported retailer and is exactly the product some `add` operation
in the history constructed (so its `added_by` is that actor's username),
and each further operation can only append to the sequence. -/
theorem C7_reachable_invariant (ops : List Op) :
    (∀ p ∈ run ops,
      (p.retailer = "Best Buy" ∨ p.retailer = "Amazon") ∧
      ∃ form username now, Op.add form username now ∈ ops ∧
        p = mkProduct form username now ∧ p.added_by = username) ∧
    (∀ op, ∃ tail, run (ops ++ [op]) = run ops ++ tail) := by
  constructor
  · intro p hp
    rcases mem_foldl_applyOp ops create_app_state p hp with h | ⟨f, u, t, hmem, hv, hpe⟩
    · simp [create_app_state] at h
    · refine ⟨?_, f, u, t, hmem, hpe, by simp [hpe, mkProduct]⟩
      have hr := (is_valid_retailer_iff f).mp hv
      rw [hpe]
      simpa [mkProduct] using hr
  · intro op
    rw [run, run, List.foldl_append]
    cases op with
    | list u => exact ⟨[], by simp [applyOp]⟩
    | add f u t =>
      simp only [List.foldl_cons, List.foldl_nil, applyOp]
      unfold add_product
      by_cases hc : (!is_valid_retailer f || !is_valid_url f) = true
      · rw [if_pos hc]
        exact ⟨[], by simp⟩
      · rw [if_neg hc]
        exact ⟨[mkProduct f u t], rfl⟩

/-- Witness for C7: after `alice`'s valid submission the stored product
has a supported retailer, and a further listing operation only appends. -/
theorem C7_witness :
    ((mkProduct amazonForm "alice" 0).retailer = "Best Buy" ∨
      (mkProduct amazonForm "alice" 0).retailer = "Amazon") ∧
    (∃ tail, run ([Op.add amazonForm "alice" 0] ++ [Op.list ⟨"Admin", UserRole.Admin⟩]) =
      run [Op.add amazonForm "alice" 0] ++ tail) := by
  constructor
  · exact ((C7_reachable_invariant [Op.add amazonForm "alice" 0]).1
      (mkProduct amazonForm "alice" 0) (by decide)).1
  · exact (C7_reachable_invariant [Op.add amazonForm "alice" 0]).2
      (Op.list ⟨"Admin", UserRole.Admin⟩)

/-- C8: ownership filtering is case-sensitive while admin detection is
case-insensitive: regular "Alice" does not see a product added by
"alice", yet both "Admin" and "admin" are detected as admins. -/
theorem C8_ownership_case_sensitive :
    list_visible ⟨"Alice", UserRole.Regular⟩
      [{ url := "https://www.amazon.com/dp/B08FC6MR62", name := "PS5",
         retailer := "Amazon", target_price := none, added_by := "alice",
         created_at := 0 }] = [] ∧
    is_admin "Admin" = true ∧ is_admin "admin" = true ∧
    resolve "Admin" "pw" = LoginResult.ok ⟨"Admin", UserRole.Admin⟩ ∧
    resolve "admin" "pw" = LoginResult.ok ⟨"admin", UserRole.Admin⟩ := by
  decide

/-- C9: the URL check is substring matching on the lowercased URL, not
host parsing: an Amazon submission whose URL points at `data.com`
succeeds because "data.com" contains "a.co", even though it contains
neither "amazon.com" nor "amzn.to". -/
theorem C9_substring_url_check :
    (add_product { url := "https://data.com/item", name := "gadget",
                   retailer := "Amazon", target_price := none } "alice" 0 []).1 =
      none ∧
    strContains (to_lowercase "https://data.com/item") "a.co" = true ∧
    strContains (to_lowercase "https://data.com/item") "amazon.com" = false ∧
    strContains (to_lowercase "https://data.com/item") "amzn.to" = false := by
  decide

/-- C10: neither the name nor the parsed target-price value is
constrained: a submission with empty name and price text "-5" succeeds
and stores empty name and target price -5. -/
theorem C10_no_name_or_price_constraint :
    add_product { url := "https://www.amazon.com/dp/B08FC6MR62", name := "",
                  retailer := "Amazon", target_price := some "-5" } "alice" 0 [] =
      (none,
       [{ url := "https://www.amazon.com/dp/B08FC6MR62", name := "",
          retailer := "Amazon", target_price := some (FloatVal.finite (-5)),
          added_by := "alice", created_at := 0 }]) := by
  unfold add_product
  rw [if_neg (by decide)]
  have hne : ("-5" : String).isEmpty = false := by decide
  have htp : targetPriceOf { url := "https://www.amazon.com/dp/B08FC6MR62", name := "",
                             retailer := "Amazon", target_price := some "-5" } =
      some (FloatVal.finite (-5)) := by
    simp only [targetPriceOf, optFilter, hne]
    simp [parseF64_neg5]
  simp [mkProduct, htp]

end Midas
